import Mathlib

/-
Verification of the kiwi Cassowary constraint solver (TypeScript source,
src/src/solver.ts together with the strength / expression / constraint /
indexed-map modules).  The embedding below translates the source into pure
Lean functions: doubles become exact rationals, the mutable solver object
becomes explicit state passing, and a thrown Error becomes an `Option String`
carried next to the state that was left behind at the throw point.
-/

namespace Kiwi

/-- Near-zero epsilon used throughout the solver; source: `let eps = 1.0e-8`. -/
def eps : ℚ := 1 / 100000000

/-- Source `nearZero(value)`: `value < 0.0 ? -value < eps : value < eps`. -/
def nearZero (v : ℚ) : Bool := if v < 0 then -v < eps else v < eps

/-- Source enum `SymbolType { Invalid, External, Slack, Error, Dummy }`. -/
inductive SymbolType where
  | Invalid
  | External
  | Slack
  | Error
  | Dummy
deriving DecidableEq, Repr

/-- Source class `Symbol` with a type and a unique integer id (named `KSymbol`
here because `Symbol` collides with a Mathlib name). -/
structure KSymbol where
  stype : SymbolType
  id : Int
deriving DecidableEq, Repr

/-- Source `INVALID_SYMBOL = new Symbol(SymbolType.Invalid, -1)`. -/
def INVALID_SYMBOL : KSymbol := ⟨SymbolType.Invalid, -1⟩

/-- Source class `Variable`; only the id matters for solver behaviour, the
computed value lives in the world state below. -/
structure KVar where
  id : Int
deriving DecidableEq, Repr

/-
The `IndexedMap` used by the source stores pairs in insertion order in an
array plus an id-to-index table.  We model it as the bare pair list; lookups
compare key ids.  `erase` swaps the removed slot with the last pair and pops
(the swap-with-last order is observable through later iteration and is kept
exactly).
-/

/-- IndexedMap.find: first pair whose key has the given id. -/
def mfind {α β : Type} (kf : α → Int) (k : Int) : List (α × β) → Option (α × β)
  | [] => none
  | p :: ps => if kf p.1 = k then some p else mfind kf k ps

/-- Tail left behind when the head slot of a list is vacated and the last
element is swapped into it (the erase compaction step). -/
def swapTail {α : Type} (ps : List α) : List α :=
  match ps.getLast? with
  | none => []
  | some q => q :: ps.dropLast

/-- IndexedMap.erase: remove the pair with the given id, moving the last pair
into the vacated slot (swap-with-last compaction), returning the removed pair
and the new list. -/
def merase {α β : Type} (kf : α → Int) (k : Int) :
    List (α × β) → Option ((α × β) × List (α × β))
  | [] => none
  | p :: ps =>
    if kf p.1 = k then some (p, swapTail ps)
    else
      match merase kf k ps with
      | none => none
      | some (q, ps2) => some (q, p :: ps2)

/-- IndexedMap.insert: overwrite in place if the id is present, else append. -/
def minsert {α β : Type} (kf : α → Int) (key : α) (v : β) :
    List (α × β) → List (α × β)
  | [] => [(key, v)]
  | p :: ps => if kf p.1 = kf key then (key, v) :: ps else p :: minsert kf key v ps

/-- Cells of a row: insertion-ordered symbol/coefficient pairs. -/
abbrev Cells := List (KSymbol × ℚ)

/-- Source class `Row`: a constant plus a cell map. -/
structure Row where
  constant : ℚ
  cells : Cells
deriving DecidableEq, Repr

/-- Row.coefficientFor: the stored coefficient, or 0 if the symbol is absent. -/
def Row.coefficientFor (r : Row) (s : KSymbol) : ℚ :=
  match mfind KSymbol.id s.id r.cells with
  | some p => p.2
  | none => 0

/-- Cell-list part of Row.insertSymbol: `setDefault` then `pair.second +=
coefficient`, erasing the cell (swap-with-last) when the sum is near zero.  A
fresh cell is appended at the end; appending and immediately erasing a
near-zero fresh cell leaves the list unchanged. -/
def insertSymbolGo (s : KSymbol) (c : ℚ) : Cells → Cells
  | [] => if nearZero c then [] else [(s, c)]
  | p :: ps =>
    if p.1.id = s.id then
      if nearZero (p.2 + c) then swapTail ps
      else (p.1, p.2 + c) :: ps
    else p :: insertSymbolGo s c ps

/-- Source Row.insertSymbol. -/
def Row.insertSymbol (r : Row) (s : KSymbol) (c : ℚ) : Row :=
  { r with cells := insertSymbolGo s c r.cells }

/-- Cell loop of Row.insertRow: insert each cell of the other row scaled by
the coefficient, in iteration order. -/
def insertRowGo (r : Row) (c : ℚ) : Cells → Row
  | [] => r
  | p :: ps => insertRowGo (r.insertSymbol p.1 (p.2 * c)) c ps

/-- Source Row.insertRow: add `c` times another row to this row. -/
def Row.insertRow (r other : Row) (c : ℚ) : Row :=
  insertRowGo { r with constant := r.constant + other.constant * c } c other.cells

/-- Source Row.removeSymbol: plain erase of the cell. -/
def Row.removeSymbol (r : Row) (s : KSymbol) : Row :=
  match merase KSymbol.id s.id r.cells with
  | none => r
  | some (_, cs) => { r with cells := cs }

/-- Source Row.reverseSign: negate the constant and every coefficient. -/
def Row.reverseSign (r : Row) : Row :=
  ⟨-r.constant, r.cells.map (fun p => (p.1, -p.2))⟩

/-- Source Row.solveFor: erase the target cell, then multiply the constant and
every remaining cell by the negative inverse of the erased coefficient.  The
source requires the symbol to be present; on an absent symbol it would crash,
here the row is returned unchanged (never relied upon). -/
def Row.solveFor (r : Row) (s : KSymbol) : Row :=
  match merase KSymbol.id s.id r.cells with
  | none => r
  | some (p, cs) =>
    let m := -1 / p.2
    ⟨r.constant * m, cs.map (fun q => (q.1, q.2 * m))⟩

/-- Source Row.solveForEx: insert the lhs with coefficient -1, then solve for
the rhs. -/
def Row.solveForEx (r : Row) (lhs rhs : KSymbol) : Row :=
  (r.insertSymbol lhs (-1)).solveFor rhs

/-- Source Row.substitute: if the symbol is present, erase it and add its
coefficient times the given row; otherwise a no-op. -/
def Row.substitute (r : Row) (s : KSymbol) (other : Row) : Row :=
  match merase KSymbol.id s.id r.cells with
  | none => r
  | some (p, cs) => Row.insertRow ⟨r.constant, cs⟩ other p.2

/-- Source Row.add: add a value to the constant (the source returns the new
constant; callers here read `.constant` of the result). -/
def Row.add (r : Row) (v : ℚ) : Row :=
  { r with constant := r.constant + v }

/-- Source Row.isConstant: no cells. -/
def Row.isConstant (r : Row) : Bool := r.cells.isEmpty

/-- Cell scan of Row.allDummies. -/
def allDummiesGo : Cells → Bool
  | [] => true
  | p :: ps => if p.1.stype = SymbolType.Dummy then allDummiesGo ps else false

/-- Source Row.allDummies: every cell symbol has type Dummy. -/
def Row.allDummies (r : Row) : Bool := allDummiesGo r.cells

namespace Strength

/-- Source Strength.create: each level is clamped to [0,1000] after weighting
and the three levels are packed into one number. -/
def create (a b c w : ℚ) : ℚ :=
  0 + max 0 (min 1000 (a * w)) * 1000000
    + max 0 (min 1000 (b * w)) * 1000
    + max 0 (min 1000 (c * w))

/-- Source Strength.required = create(1000, 1000, 1000) (default weight 1). -/
def required : ℚ := create 1000 1000 1000 1

/-- Source Strength.strong = create(1, 0, 0). -/
def strong : ℚ := create 1 0 0 1

/-- Source Strength.medium = create(0, 1, 0). -/
def medium : ℚ := create 0 1 0 1

/-- Source Strength.weak = create(0, 0, 1). -/
def weak : ℚ := create 0 0 1 1

/-- Source Strength.clip: clamp a strength into [0, required]. -/
def clip (v : ℚ) : ℚ := max 0 (min required v)

end Strength

/-- Source class `Expression`: a term map from variables to coefficients plus
a constant.  Construction order of the term list follows the source
`parseArgs` (insertion order, duplicate variables summed in place). -/
structure Expression where
  terms : List (KVar × ℚ)
  constant : ℚ
deriving DecidableEq, Repr

/-- Term-map update used by the source `parseArgs`:
`terms.setDefault(v, () => 0).second += c` (no near-zero pruning here). -/
def addTerm (v : KVar) (c : ℚ) : List (KVar × ℚ) → List (KVar × ℚ)
  | [] => [(v, c)]
  | p :: ps => if p.1.id = v.id then (p.1, p.2 + c) :: ps else p :: addTerm v c ps

/-- Source `new Expression(variable)`: a single +1 term, constant 0. -/
def Expression.ofVar (v : KVar) : Expression := ⟨[(v, 1)], 0⟩

/-- Source `new Expression([k, variable])`: a single scaled term, constant 0. -/
def Expression.scaledVar (v : KVar) (k : ℚ) : Expression := ⟨[(v, k)], 0⟩

/-- Source `expression.minus(number)` = `new Expression(this, -number)`:
terms are kept, the number is folded into the constant. -/
def Expression.minusNum (e : Expression) (c : ℚ) : Expression :=
  { e with constant := e.constant - c }

/-- Source enum `Operator { Le, Ge, Eq }`. -/
inductive Operator where
  | Le
  | Ge
  | Eq
deriving DecidableEq, Repr

/-- Source class `Constraint`: an expression (rhs already folded in), an
operator, a clipped strength, and a unique id (the source uses a module
counter `CnId`; ids are supplied explicitly here and by the world
constraint-id tick). -/
structure Constraint where
  id : Int
  expression : Expression
  op : Operator
  strength : ℚ
deriving DecidableEq, Repr

/-- Source Constraint constructor: the strength argument is clipped. -/
def Constraint.make (id : Int) (expression : Expression) (op : Operator)
    (strength : ℚ) : Constraint :=
  ⟨id, expression, op, Strength.clip strength⟩

/-- Source interface `ITag`: the marker of the constraint and other symbols. -/
structure Tag where
  marker : KSymbol
  other : KSymbol
deriving DecidableEq, Repr

/-- Source interface `IEditInfo`. -/
structure EditInfo where
  tag : Tag
  constraint : Constraint
  constant : ℚ
deriving DecidableEq, Repr

/-- Selector for the row `_optimize` reads its entering symbols from: the
solver objective or the live artificial row. -/
inductive ObjSel where
  | main
  | art
deriving DecidableEq, Repr

/-- Source class `Solver`: the four maps, the infeasible-row stack, the
objective, the optional artificial row, the symbol id tick and the iteration
ceiling. -/
structure Solver where
  cnMap : List (Constraint × Tag)
  rowMap : List (KSymbol × Row)
  varMap : List (KVar × KSymbol)
  editMap : List (KVar × EditInfo)
  infeasibleRows : List KSymbol
  objective : Row
  artificial : Option Row
  idTick : Int
  maxIterations : Nat

/-- A freshly constructed Solver (source field initializers; maxIterations
defaults to 1000). -/
def Solver.empty : Solver :=
  ⟨[], [], [], [], [], ⟨0, []⟩, none, 0, 1000⟩

/-- Source Solver._makeSymbol. -/
def Solver.makeSymbol (s : Solver) (t : SymbolType) : Solver × KSymbol :=
  ({ s with idTick := s.idTick + 1 }, ⟨t, s.idTick⟩)

/-- Source Solver._getVarSymbol: `varMap.setDefault(variable, factory)` where
the factory makes a fresh External symbol. -/
def Solver.getVarSymbol (s : Solver) (v : KVar) : Solver × KSymbol :=
  match mfind KVar.id v.id s.varMap with
  | some p => (s, p.2)
  | none =>
    let (s2, sym) := s.makeSymbol SymbolType.External
    ({ s2 with varMap := s2.varMap ++ [(v, sym)] }, sym)

/-- Term loop of Solver._createRow: near-zero coefficients are skipped; a
currently-basic variable is substituted by its defining row, otherwise its
symbol is inserted directly. -/
def Solver.createRowTerms (s : Solver) (row : Row) :
    List (KVar × ℚ) → Solver × Row
  | [] => (s, row)
  | t :: ts =>
    if nearZero t.2 then s.createRowTerms row ts
    else
      let (s2, sym) := s.getVarSymbol t.1
      match mfind KSymbol.id sym.id s2.rowMap with
      | some bp => s2.createRowTerms (row.insertRow bp.2 t.2) ts
      | none => s2.createRowTerms (row.insertSymbol sym t.2) ts

/-- Source Solver._createRow: build the row from the constraint expression,
add the slack/error/dummy symbols per the operator and strength (recording
error strengths in the objective), and reverse the sign if the constant is
negative. -/
def Solver.createRow (s : Solver) (cn : Constraint) : Solver × Row × Tag :=
  let (s1, row0) := s.createRowTerms ⟨cn.expression.constant, []⟩ cn.expression.terms
  let strength := cn.strength
  let (s2, row2, tag) :=
    match cn.op with
    | Operator.Le | Operator.Ge =>
      let coeff : ℚ := if cn.op = Operator.Le then 1 else -1
      let (sa, slack) := s1.makeSymbol SymbolType.Slack
      let rowa := row0.insertSymbol slack coeff
      if strength < Strength.required then
        let (sb, error) := sa.makeSymbol SymbolType.Error
        let rowb := rowa.insertSymbol error (-coeff)
        ({ sb with objective := sb.objective.insertSymbol error strength },
          rowb, (⟨slack, error⟩ : Tag))
      else (sa, rowa, (⟨slack, INVALID_SYMBOL⟩ : Tag))
    | Operator.Eq =>
      if strength < Strength.required then
        let (sa, errplus) := s1.makeSymbol SymbolType.Error
        let (sb, errminus) := sa.makeSymbol SymbolType.Error
        let rowa := (row0.insertSymbol errplus (-1)).insertSymbol errminus 1
        ({ sb with objective :=
            (sb.objective.insertSymbol errplus strength).insertSymbol errminus strength },
          rowa, (⟨errplus, errminus⟩ : Tag))
      else
        let (sa, dummy) := s1.makeSymbol SymbolType.Dummy
        (sa, row0.insertSymbol dummy 1, (⟨dummy, INVALID_SYMBOL⟩ : Tag))
  if row2.constant < 0 then (s2, row2.reverseSign, tag) else (s2, row2, tag)

/-- First External symbol in cell order (scan inside _chooseSubject). -/
def firstExternalCell : Cells → Option KSymbol
  | [] => none
  | p :: ps => if p.1.stype = SymbolType.External then some p.1 else firstExternalCell ps

/-- Source Solver._chooseSubject: first External cell symbol; else the marker
if it is Slack or Error with a negative coefficient; else the other symbol
under the same condition; else the invalid symbol. -/
def Solver.chooseSubject (row : Row) (tag : Tag) : KSymbol :=
  match firstExternalCell row.cells with
  | some sym => sym
  | none =>
    if (tag.marker.stype = SymbolType.Slack ∨ tag.marker.stype = SymbolType.Error)
        ∧ row.coefficientFor tag.marker < 0 then tag.marker
    else if (tag.other.stype = SymbolType.Slack ∨ tag.other.stype = SymbolType.Error)
        ∧ row.coefficientFor tag.other < 0 then tag.other
    else INVALID_SYMBOL

/-- The all-dummies fallback of Solver.addConstraint immediately after
_chooseSubject: an invalid subject on an all-dummy row means the marker can
enter the basis when the constant is near zero, and the constraint is
unsatisfiable otherwise. -/
def Solver.resolveSubject (row : Row) (tag : Tag) : Except String KSymbol :=
  let subject := Solver.chooseSubject row tag
  if subject.stype = SymbolType.Invalid ∧ row.allDummies = true then
    if nearZero row.constant = false then Except.error "unsatisfiable constraint"
    else Except.ok tag.marker
  else Except.ok subject

/-- Row-map loop of Solver._substitute: substitute into every row in order,
collecting (in iteration order) the non-External basic symbols whose row
constant became negative. -/
def substRows (sym : KSymbol) (row : Row) :
    List (KSymbol × Row) → List (KSymbol × Row) × List KSymbol
  | [] => ([], [])
  | p :: ps =>
    let r2 := p.2.substitute sym row
    let (rest, inf) := substRows sym row ps
    ((p.1, r2) :: rest,
      (if r2.constant < 0 ∧ p.1.stype ≠ SymbolType.External then [p.1] else []) ++ inf)

/-- Source Solver._substitute: substitute into the tableau (pushing infeasible
rows), the objective, and the artificial row if alive. -/
def Solver.substituteAll (s : Solver) (sym : KSymbol) (row : Row) : Solver :=
  let done := substRows sym row s.rowMap
  { s with rowMap := done.1,
           infeasibleRows := s.infeasibleRows ++ done.2,
           objective := s.objective.substitute sym row,
           artificial := match s.artificial with
             | none => none
             | some a => some (a.substitute sym row) }

/-- Cell scan of Solver._getEnteringSymbol: first non-Dummy cell with a
negative coefficient. -/
def getEnteringCell : Cells → KSymbol
  | [] => INVALID_SYMBOL
  | p :: ps =>
    if p.2 < 0 ∧ p.1.stype ≠ SymbolType.Dummy then p.1 else getEnteringCell ps

/-- Source Solver._getEnteringSymbol. -/
def Solver.getEnteringSymbol (objective : Row) : KSymbol :=
  getEnteringCell objective.cells

/-- Stand-in for the JavaScript `Number.MAX_VALUE` starting ratio. -/
def MAXVALUE : ℚ := 2 ^ 1024 - 2 ^ 971

/-- Row scan of Solver._getLeavingSymbol: among non-External basic rows with a
negative coefficient on the entering symbol, the one minimizing
`-constant / coefficient` (strict improvement, first wins ties). -/
def getLeavingGo (entering : KSymbol) :
    List (KSymbol × Row) → ℚ → KSymbol → KSymbol
  | [], _, found => found
  | p :: ps, best, found =>
    if p.1.stype ≠ SymbolType.External then
      let temp := p.2.coefficientFor entering
      if temp < 0 then
        let tr := -p.2.constant / temp
        if tr < best then getLeavingGo entering ps tr p.1
        else getLeavingGo entering ps best found
      else getLeavingGo entering ps best found
    else getLeavingGo entering ps best found

/-- Source Solver._getLeavingSymbol. -/
def Solver.getLeavingSymbol (s : Solver) (entering : KSymbol) : KSymbol :=
  getLeavingGo entering s.rowMap MAXVALUE INVALID_SYMBOL

/-- Cell scan of Solver._anyPivotableSymbol: first Slack or Error cell. -/
def anyPivotableCell : Cells → KSymbol
  | [] => INVALID_SYMBOL
  | p :: ps =>
    if p.1.stype = SymbolType.Slack ∨ p.1.stype = SymbolType.Error then p.1
    else anyPivotableCell ps

/-- The objective row `_optimize` scans: the solver objective or the live
artificial row (the source passes the row by reference). -/
def Solver.getObj (s : Solver) : ObjSel → Row
  | ObjSel.main => s.objective
  | ObjSel.art =>
    match s.artificial with
    | some a => a
    | none => ⟨0, []⟩

/-- Source Solver._optimize as a fuelled loop: each iteration finds the
entering symbol in the selected objective (done when invalid), finds the
leaving row (unbounded when invalid), and pivots.  Running out of fuel is the
source throwing the Error with message solver iterations exceeded. -/
def Solver.optimizeLoop : Nat → Solver → ObjSel → Solver × Option String
  | 0, s, _ => (s, some "solver iterations exceeded")
  | Nat.succ fuel, s, sel =>
    let entering := Solver.getEnteringSymbol (s.getObj sel)
    if entering.stype = SymbolType.Invalid then (s, none)
    else
      let leaving := s.getLeavingSymbol entering
      if leaving.stype = SymbolType.Invalid then (s, some "the objective is unbounded")
      else
        match merase KSymbol.id leaving.id s.rowMap with
        | none => (s, some "internal solver error")
        | some (p, rm) =>
          let row := p.2.solveForEx leaving entering
          let s2 := Solver.substituteAll { s with rowMap := rm } entering row
          Solver.optimizeLoop fuel
            { s2 with rowMap := minsert KSymbol.id entering row s2.rowMap } sel

/-- Source Solver._optimize with the iteration ceiling of the solver as fuel. -/
def Solver.optimize (s : Solver) (sel : ObjSel) : Solver × Option String :=
  Solver.optimizeLoop s.maxIterations s sel

/-- Source Solver._addWithArtificialVariable: install a fresh slack symbol
over a copy of the row, keep a second copy as the artificial objective,
optimize it, pivot the artificial symbol out of the basis if needed, and
finally delete it from every row and the objective. -/
def Solver.addWithArtificialVariable (s : Solver) (row : Row) :
    Solver × Option String × Bool :=
  let (sa, art) := s.makeSymbol SymbolType.Slack
  let sb := { sa with rowMap := minsert KSymbol.id art row sa.rowMap,
                      artificial := some row }
  match sb.optimize ObjSel.art with
  | (sc, some e) => (sc, some e, false)
  | (sc, none) =>
    let success := nearZero (sc.getObj ObjSel.art).constant
    let sd := { sc with artificial := none }
    let finish := fun (sx : Solver) =>
      ({ sx with rowMap := sx.rowMap.map (fun p => (p.1, p.2.removeSymbol art)),
                 objective := sx.objective.removeSymbol art },
        (none : Option String), success)
    match merase KSymbol.id art.id sd.rowMap with
    | none => finish sd
    | some (p, rm) =>
      let se := { sd with rowMap := rm }
      let basicRow := p.2
      if basicRow.isConstant then (se, none, success)
      else
        let entering := anyPivotableCell basicRow.cells
        if entering.stype = SymbolType.Invalid then (se, none, false)
        else
          let basicRow2 := basicRow.solveForEx art entering
          let sf := se.substituteAll entering basicRow2
          finish { sf with rowMap := minsert KSymbol.id entering basicRow2 sf.rowMap }

/-- Cell scan of Solver._getDualEnteringSymbol: among positive non-Dummy
cells, the one minimizing objective coefficient over cell coefficient. -/
def dualEnteringGo (obj : Row) : Cells → ℚ → KSymbol → KSymbol
  | [], _, ent => ent
  | p :: ps, best, ent =>
    if 0 < p.2 ∧ p.1.stype ≠ SymbolType.Dummy then
      let r := obj.coefficientFor p.1 / p.2
      if r < best then dualEnteringGo obj ps r p.1
      else dualEnteringGo obj ps best ent
    else dualEnteringGo obj ps best ent

/-- Source Solver._getDualEnteringSymbol. -/
def Solver.getDualEnteringSymbol (s : Solver) (row : Row) : KSymbol :=
  dualEnteringGo s.objective row.cells MAXVALUE INVALID_SYMBOL

/-- Source Solver._dualOptimize as a fuelled loop: pop from the infeasible
stack (a JavaScript `pop` takes the last element); when the popped symbol is
still basic with a negative constant, pivot its dual entering symbol in.  The
source loop is unbounded; fuel only truncates a run that would diverge. -/
def Solver.dualLoop : Nat → Solver → Solver × Option String
  | 0, s => (s, some "dual optimize iterations exceeded")
  | Nat.succ fuel, s =>
    match s.infeasibleRows.getLast? with
    | none => (s, none)
    | some leaving =>
      let s1 := { s with infeasibleRows := s.infeasibleRows.dropLast }
      match mfind KSymbol.id leaving.id s1.rowMap with
      | none => Solver.dualLoop fuel s1
      | some p =>
        if p.2.constant < 0 then
          let entering := s1.getDualEnteringSymbol p.2
          if entering.stype = SymbolType.Invalid then (s1, some "dual optimize failed")
          else
            match merase KSymbol.id leaving.id s1.rowMap with
            | none => (s1, some "internal solver error")
            | some (rp, rm) =>
              let row := rp.2.solveForEx leaving entering
              let s2 := Solver.substituteAll { s1 with rowMap := rm } entering row
              Solver.dualLoop fuel
                { s2 with rowMap := minsert KSymbol.id entering row s2.rowMap }
        else Solver.dualLoop fuel s1

/-- Source Solver._dualOptimize, fuelled like _optimize. -/
def Solver.dualOptimize (s : Solver) : Solver × Option String :=
  Solver.dualLoop s.maxIterations s

/-- Row scan of Solver._getMarkerLeavingSymbol carrying the two best ratios
and the three candidate symbols. -/
def markerLeavingGo (marker : KSymbol) :
    List (KSymbol × Row) → ℚ → ℚ → KSymbol → KSymbol → KSymbol → KSymbol
  | [], _, _, first, second, third =>
    if first ≠ INVALID_SYMBOL then first
    else if second ≠ INVALID_SYMBOL then second
    else third
  | p :: ps, r1, r2, first, second, third =>
    let c := p.2.coefficientFor marker
    if c = 0 then markerLeavingGo marker ps r1 r2 first second third
    else if p.1.stype = SymbolType.External then
      markerLeavingGo marker ps r1 r2 first second p.1
    else if c < 0 then
      let r := -p.2.constant / c
      if r < r1 then markerLeavingGo marker ps r r2 p.1 second third
      else markerLeavingGo marker ps r1 r2 first second third
    else
      let r := p.2.constant / c
      if r < r2 then markerLeavingGo marker ps r1 r first p.1 third
      else markerLeavingGo marker ps r1 r2 first second third

/-- Source Solver._getMarkerLeavingSymbol. -/
def Solver.getMarkerLeavingSymbol (s : Solver) (marker : KSymbol) : KSymbol :=
  markerLeavingGo marker s.rowMap MAXVALUE MAXVALUE
    INVALID_SYMBOL INVALID_SYMBOL INVALID_SYMBOL

/-- Source Solver._removeMarkerEffects: subtract the strength-weighted row (if
the marker is basic) or cell (otherwise) from the objective. -/
def Solver.removeMarkerEffects (s : Solver) (marker : KSymbol) (strength : ℚ) :
    Solver :=
  match mfind KSymbol.id marker.id s.rowMap with
  | some p => { s with objective := s.objective.insertRow p.2 (-strength) }
  | none => { s with objective := s.objective.insertSymbol marker (-strength) }

/-- Source Solver._removeConstraintEffects: undo the objective
contribution. -/
def Solver.removeConstraintEffects (s : Solver) (cn : Constraint) (tag : Tag) :
    Solver :=
  let s1 := if tag.marker.stype = SymbolType.Error
    then s.removeMarkerEffects tag.marker cn.strength else s
  if tag.other.stype = SymbolType.Error
    then s1.removeMarkerEffects tag.other cn.strength else s1

/-
Public interface.  `World` bundles the solver with the values stored in the
user-facing Variable objects (written only by `updateVariables`) and the
module-level constraint id counter `CnId` used when `addEditVariable` builds
its synthetic constraint.  A public call returns the world as it stands when
the call finishes or throws, together with the thrown message if any.
-/

/-- Solver-external state: variable values and the constraint id counter. -/
structure World where
  solver : Solver
  vals : Int → ℚ
  cnTick : Int

/-- A fresh world: a new Solver, all variable values 0 (the Variable
constructor default), constraint ids starting at 0. -/
def World.fresh : World := ⟨Solver.empty, fun _ => 0, 0⟩

/-- Source Solver.addConstraint: duplicate check, row creation, subject
resolution (with the all-dummy fallback), pivot-in or artificial phase,
constraint registration, and re-optimization. -/
def World.addConstraint (w : World) (cn : Constraint) : World × Option String :=
  match mfind Constraint.id cn.id w.solver.cnMap with
  | some _ => (w, some "duplicate constraint")
  | none =>
    let created := w.solver.createRow cn
    let s := created.1
    let row := created.2.1
    let tag := created.2.2
    let finish := fun (sx : Solver) =>
      let sy := { sx with cnMap := sx.cnMap ++ [(cn, tag)] }
      let res := sy.optimize ObjSel.main
      ({ w with solver := res.1 }, res.2)
    match Solver.resolveSubject row tag with
    | Except.error e => ({ w with solver := s }, some e)
    | Except.ok subject =>
      if subject.stype = SymbolType.Invalid then
        match s.addWithArtificialVariable row with
        | (s2, some e, _) => ({ w with solver := s2 }, some e)
        | (s2, none, success) =>
          if success = false then ({ w with solver := s2 }, some "unsatisfiable constraint")
          else finish s2
      else
        let row2 := row.solveFor subject
        let s2 := s.substituteAll subject row2
        finish { s2 with rowMap := minsert KSymbol.id subject row2 s2.rowMap }

/-- Source Solver.removeConstraint: erase the tag, undo the error effects
before pivoting, drop the row of the marker (pivoting the marker in first when it
is not basic), and re-optimize. -/
def World.removeConstraint (w : World) (cn : Constraint) : World × Option String :=
  match merase Constraint.id cn.id w.solver.cnMap with
  | none => (w, some "unknown constraint")
  | some (cnPair, cnMap2) =>
    let s := { w.solver with cnMap := cnMap2 }
    let s1 := s.removeConstraintEffects cn cnPair.2
    let marker := cnPair.2.marker
    match merase KSymbol.id marker.id s1.rowMap with
    | some (_, rm) =>
      let res := Solver.optimize { s1 with rowMap := rm } ObjSel.main
      ({ w with solver := res.1 }, res.2)
    | none =>
      let leaving := s1.getMarkerLeavingSymbol marker
      if leaving.stype = SymbolType.Invalid then
        ({ w with solver := s1 }, some "failed to find leaving row")
      else
        match merase KSymbol.id leaving.id s1.rowMap with
        | none => ({ w with solver := s1 }, some "internal solver error")
        | some (rp, rm) =>
          let row := rp.2.solveForEx leaving marker
          let s2 := Solver.substituteAll { s1 with rowMap := rm } marker row
          let res := s2.optimize ObjSel.main
          ({ w with solver := res.1 }, res.2)

/-- Source Solver.hasConstraint. -/
def World.hasConstraint (w : World) (cn : Constraint) : Bool :=
  (mfind Constraint.id cn.id w.solver.cnMap).isSome

/-- Source Solver.addEditVariable: duplicate check, strength clipping and the
required-strength check, then a synthetic `v = 0` equality constraint at the
clipped strength and an edit map entry with starting constant 0. -/
def World.addEditVariable (w : World) (v : KVar) (strength : ℚ) :
    World × Option String :=
  match mfind KVar.id v.id w.solver.editMap with
  | some _ => (w, some "duplicate edit variable")
  | none =>
    let strength2 := Strength.clip strength
    if strength2 = Strength.required then (w, some "bad required strength")
    else
      let cn := Constraint.make w.cnTick (Expression.ofVar v) Operator.Eq strength2
      let w2 := { w with cnTick := w.cnTick + 1 }
      match w2.addConstraint cn with
      | (w3, some e) => (w3, some e)
      | (w3, none) =>
        match mfind Constraint.id cn.id w3.solver.cnMap with
        | none => (w3, some "internal solver error")
        | some tp =>
          ({ w3 with solver := { w3.solver with
              editMap := w3.solver.editMap ++ [(v, ⟨tp.2, cn, 0⟩)] } }, none)

/-- Source Solver.removeEditVariable. -/
def World.removeEditVariable (w : World) (v : KVar) : World × Option String :=
  match merase KVar.id v.id w.solver.editMap with
  | none => (w, some "unknown edit variable")
  | some (ep, em) =>
    World.removeConstraint { w with solver := { w.solver with editMap := em } }
      ep.2.constraint

/-- Row loop of the fallback case of Solver.suggestValue: for every row whose
marker coefficient is nonzero, add delta times the coefficient to its
constant, collecting non-External basic symbols that became negative. -/
def suggestRowsGo (marker : KSymbol) (delta : ℚ) :
    List (KSymbol × Row) → List (KSymbol × Row) × List KSymbol
  | [] => ([], [])
  | p :: ps =>
    let coeff := p.2.coefficientFor marker
    let (rest, inf) := suggestRowsGo marker delta ps
    if coeff = 0 then ((p.1, p.2) :: rest, inf)
    else
      let r2 := p.2.add (delta * coeff)
      ((p.1, r2) :: rest,
        (if r2.constant < 0 ∧ p.1.stype ≠ SymbolType.External then [p.1] else []) ++ inf)

/-- Source Solver.suggestValue: store the new constant, apply the delta to the
basic marker row, the basic other row, or every row containing the marker, and
run the dual simplex. -/
def World.suggestValue (w : World) (v : KVar) (value : ℚ) : World × Option String :=
  match mfind KVar.id v.id w.solver.editMap with
  | none => (w, some "unknown edit variable")
  | some ep =>
    let info := ep.2
    let delta := value - info.constant
    let s := { w.solver with
      editMap := minsert KVar.id v { info with constant := value } w.solver.editMap }
    let marker := info.tag.marker
    match mfind KSymbol.id marker.id s.rowMap with
    | some rp =>
      let r2 := rp.2.add (-delta)
      let s2 := { s with rowMap := minsert KSymbol.id marker r2 s.rowMap }
      let s3 := if r2.constant < 0
        then { s2 with infeasibleRows := s2.infeasibleRows ++ [marker] } else s2
      let res := s3.dualOptimize
      ({ w with solver := res.1 }, res.2)
    | none =>
      let other := info.tag.other
      match mfind KSymbol.id other.id s.rowMap with
      | some rp =>
        let r2 := rp.2.add delta
        let s2 := { s with rowMap := minsert KSymbol.id other r2 s.rowMap }
        let s3 := if r2.constant < 0
          then { s2 with infeasibleRows := s2.infeasibleRows ++ [other] } else s2
        let res := s3.dualOptimize
        ({ w with solver := res.1 }, res.2)
      | none =>
        let done := suggestRowsGo marker delta s.rowMap
        let s2 := { s with rowMap := done.1,
                           infeasibleRows := s.infeasibleRows ++ done.2 }
        let res := s2.dualOptimize
        ({ w with solver := res.1 }, res.2)

/-- Variable loop of Solver.updateVariables. -/
def updateVarsGo (rowMap : List (KSymbol × Row)) (vals : Int → ℚ) :
    List (KVar × KSymbol) → Int → ℚ
  | [] => vals
  | p :: ps =>
    let c : ℚ :=
      match mfind KSymbol.id p.2.id rowMap with
      | some rp => rp.2.constant
      | none => 0
    updateVarsGo rowMap (fun n => if n = p.1.id then c else vals n) ps

/-- Source Solver.updateVariables: for each variable in the variable map, copy
the constant of its basic row into its value, or 0 when its symbol is not basic. -/
def World.updateVariables (w : World) : World :=
  { w with vals := updateVarsGo w.solver.rowMap w.vals w.solver.varMap }

/-
Helper lemmas shared by the claim theorems.
-/

theorem nearZero_iff_abs {q : ℚ} : nearZero q = true ↔ |q| < eps := by
  unfold nearZero
  rcases lt_or_le q 0 with h | h
  · rw [abs_of_neg h, if_pos h]
    simp
  · rw [abs_of_nonneg h, if_neg (not_lt.mpr h)]
    simp

theorem nearZero_false_iff_abs {q : ℚ} : nearZero q = false ↔ eps ≤ |q| := by
  rw [← not_lt, ← nearZero_iff_abs]
  simp

/-- Bool-to-order bridge for `nearZero` in if-conditions, phrased for simp. -/
@[simp] theorem nearZero_eq_true_simp {q : ℚ} : (nearZero q = true) = (|q| < eps) :=
  propext nearZero_iff_abs

@[simp] theorem nearZero_eq_false_simp {q : ℚ} : (nearZero q = false) = (eps ≤ |q|) :=
  propext nearZero_false_iff_abs

/-
Constructor inequality facts for the two enums, so that simp evaluation of the
type tests of the solver goes through (the default simp set of this toolchain does
not reduce these on its own inside norm_num).
-/

@[simp] theorem stEq1 : (SymbolType.Invalid = SymbolType.External) = False := eq_false (by decide)
@[simp] theorem stEq2 : (SymbolType.Invalid = SymbolType.Slack) = False := eq_false (by decide)
@[simp] theorem stEq3 : (SymbolType.Invalid = SymbolType.Error) = False := eq_false (by decide)
@[simp] theorem stEq4 : (SymbolType.Invalid = SymbolType.Dummy) = False := eq_false (by decide)
@[simp] theorem stEq5 : (SymbolType.External = SymbolType.Invalid) = False := eq_false (by decide)
@[simp] theorem stEq6 : (SymbolType.External = SymbolType.Slack) = False := eq_false (by decide)
@[simp] theorem stEq7 : (SymbolType.External = SymbolType.Error) = False := eq_false (by decide)
@[simp] theorem stEq8 : (SymbolType.External = SymbolType.Dummy) = False := eq_false (by decide)
@[simp] theorem stEq9 : (SymbolType.Slack = SymbolType.Invalid) = False := eq_false (by decide)
@[simp] theorem stEq10 : (SymbolType.Slack = SymbolType.External) = False := eq_false (by decide)
@[simp] theorem stEq11 : (SymbolType.Slack = SymbolType.Error) = False := eq_false (by decide)
@[simp] theorem stEq12 : (SymbolType.Slack = SymbolType.Dummy) = False := eq_false (by decide)
@[simp] theorem stEq13 : (SymbolType.Error = SymbolType.Invalid) = False := eq_false (by decide)
@[simp] theorem stEq14 : (SymbolType.Error = SymbolType.External) = False := eq_false (by decide)
@[simp] theorem stEq15 : (SymbolType.Error = SymbolType.Slack) = False := eq_false (by decide)
@[simp] theorem stEq16 : (SymbolType.Error = SymbolType.Dummy) = False := eq_false (by decide)
@[simp] theorem stEq17 : (SymbolType.Dummy = SymbolType.Invalid) = False := eq_false (by decide)
@[simp] theorem stEq18 : (SymbolType.Dummy = SymbolType.External) = False := eq_false (by decide)
@[simp] theorem stEq19 : (SymbolType.Dummy = SymbolType.Slack) = False := eq_false (by decide)
@[simp] theorem stEq20 : (SymbolType.Dummy = SymbolType.Error) = False := eq_false (by decide)
@[simp] theorem opEq1 : (Operator.Le = Operator.Ge) = False := eq_false (by decide)
@[simp] theorem opEq2 : (Operator.Le = Operator.Eq) = False := eq_false (by decide)
@[simp] theorem opEq3 : (Operator.Ge = Operator.Le) = False := eq_false (by decide)
@[simp] theorem opEq4 : (Operator.Ge = Operator.Eq) = False := eq_false (by decide)
@[simp] theorem opEq5 : (Operator.Eq = Operator.Le) = False := eq_false (by decide)
@[simp] theorem opEq6 : (Operator.Eq = Operator.Ge) = False := eq_false (by decide)

theorem Strength.required_val : Strength.required = 1001001000 := by
  norm_num [Strength.required, Strength.create]

theorem Strength.clip_nonneg (v : ℚ) : 0 ≤ Strength.clip v := le_max_left 0 _

theorem Strength.clip_of_ge {v : ℚ} (h : Strength.required ≤ v) :
    Strength.clip v = Strength.required := by
  unfold Strength.clip
  rw [min_eq_left h,
    max_eq_right (by rw [Strength.required_val]; norm_num : (0:ℚ) ≤ Strength.required)]

theorem Strength.clip_lt_required {v : ℚ} (h : v < Strength.required) :
    Strength.clip v < Strength.required := by
  unfold Strength.clip
  rcases le_or_lt 0 v with h0 | h0
  · rw [min_eq_right h.le, max_eq_right h0]
    exact h
  · rw [max_eq_left (le_trans (min_le_right _ _) h0.le)]
    rw [Strength.required_val]
    norm_num

theorem Strength.clip_le_required (v : ℚ) : Strength.clip v ≤ Strength.required :=
  max_le (by rw [Strength.required_val]; norm_num) (min_le_left _ _)

theorem Strength.clip_idem (v : ℚ) : Strength.clip (Strength.clip v) = Strength.clip v := by
  rw [show Strength.clip (Strength.clip v)
        = max 0 (min Strength.required (Strength.clip v)) from rfl,
    min_eq_right (Strength.clip_le_required v), max_eq_right (Strength.clip_nonneg v)]

theorem Solver.optimize_noop (s : Solver) (sel : ObjSel)
    (h : (Solver.getEnteringSymbol (s.getObj sel)).stype = SymbolType.Invalid)
    (hfuel : ¬ s.maxIterations = 0) :
    s.optimize sel = (s, none) := by
  show Solver.optimizeLoop s.maxIterations s sel = (s, none)
  cases hm : s.maxIterations with
  | zero => exact absurd hm hfuel
  | succ n => simp [Solver.optimizeLoop, h]

theorem Solver.dualOptimize_noop (s : Solver)
    (h : s.infeasibleRows = []) (hfuel : ¬ s.maxIterations = 0) :
    s.dualOptimize = (s, none) := by
  show Solver.dualLoop s.maxIterations s = (s, none)
  cases hm : s.maxIterations with
  | zero => exact absurd hm hfuel
  | succ n => simp [Solver.dualLoop, h]

theorem Solver.substituteAll_cnMap (s : Solver) (sym : KSymbol) (row : Row) :
    (s.substituteAll sym row).cnMap = s.cnMap := rfl

theorem Solver.removeMarkerEffects_cnMap (s : Solver) (m : KSymbol) (σ : ℚ) :
    (s.removeMarkerEffects m σ).cnMap = s.cnMap := by
  unfold Solver.removeMarkerEffects
  cases mfind KSymbol.id m.id s.rowMap <;> rfl

theorem Solver.removeConstraintEffects_cnMap (s : Solver) (cn : Constraint) (tag : Tag) :
    (s.removeConstraintEffects cn tag).cnMap = s.cnMap := by
  unfold Solver.removeConstraintEffects
  split <;> split <;> simp [Solver.removeMarkerEffects_cnMap]

theorem Solver.optimizeLoop_cnMap :
    ∀ (fuel : Nat) (s : Solver) (sel : ObjSel),
      ((Solver.optimizeLoop fuel s sel).1).cnMap = s.cnMap := by
  intro fuel
  induction fuel with
  | zero => intro s sel; rfl
  | succ n ih =>
    intro s sel
    simp only [Solver.optimizeLoop]
    split
    · rfl
    · split
      · rfl
      · split
        · rfl
        · rw [ih]
          simp [Solver.substituteAll_cnMap]

theorem Solver.optimize_cnMap (s : Solver) (sel : ObjSel) :
    ((s.optimize sel).1).cnMap = s.cnMap :=
  Solver.optimizeLoop_cnMap s.maxIterations s sel

/-
Definitions and lemmas for the Row cell invariant (claim C8).
-/

/-- No stored cell has a coefficient within eps of zero. -/
def Row.noTinyCells (r : Row) : Prop := ∀ p ∈ r.cells, eps ≤ |p.2|

theorem mem_of_swapTail {α : Type} {ps : List α} {x : α}
    (hx : x ∈ swapTail ps) : x ∈ ps := by
  unfold swapTail at hx
  cases hl : ps.getLast? with
  | none => rw [hl] at hx; simp at hx
  | some q =>
    rw [hl] at hx
    rcases List.mem_cons.mp hx with h1 | h2
    · exact h1 ▸ List.mem_of_mem_getLast? hl
    · exact List.dropLast_subset ps h2

theorem insertSymbolGo_noTiny {s : KSymbol} {c : ℚ} :
    ∀ {cs : Cells}, (∀ p ∈ cs, eps ≤ |p.2|) →
      ∀ p ∈ insertSymbolGo s c cs, eps ≤ |p.2| := by
  intro cs
  induction cs with
  | nil =>
    intro _ p hp
    rw [insertSymbolGo] at hp
    split at hp
    · simp at hp
    · rename_i h
      rw [Bool.not_eq_true, nearZero_false_iff_abs] at h
      rw [List.mem_singleton.mp hp]
      exact h
  | cons q qs ih =>
    intro hinv p hp
    rw [insertSymbolGo] at hp
    split at hp
    · split at hp
      · exact hinv p (List.mem_cons_of_mem q (mem_of_swapTail hp))
      · rename_i h
        rw [Bool.not_eq_true, nearZero_false_iff_abs] at h
        rcases List.mem_cons.mp hp with h1 | h2
        · rw [h1]
          exact h
        · exact hinv p (List.mem_cons_of_mem q h2)
    · rcases List.mem_cons.mp hp with h1 | h2
      · rw [h1]
        exact hinv q (List.mem_cons_self q qs)
      · exact ih (fun r hr => hinv r (List.mem_cons_of_mem q hr)) p h2

theorem Row.insertSymbol_noTiny {r : Row} (s : KSymbol) (c : ℚ)
    (h : r.noTinyCells) : (r.insertSymbol s c).noTinyCells :=
  insertSymbolGo_noTiny h

theorem insertRowGo_noTiny :
    ∀ (cs : Cells) (r : Row) (c : ℚ), r.noTinyCells → (insertRowGo r c cs).noTinyCells := by
  intro cs
  induction cs with
  | nil => intro r c h; exact h
  | cons p ps ih =>
    intro r c h
    rw [insertRowGo]
    exact ih _ c (r.insertSymbol_noTiny p.1 (p.2 * c) h)

theorem Row.insertRow_noTiny {r : Row} (other : Row) (c : ℚ)
    (h : r.noTinyCells) : (r.insertRow other c).noTinyCells :=
  insertRowGo_noTiny other.cells _ c h

theorem Row.reverseSign_noTiny {r : Row} (h : r.noTinyCells) :
    (r.reverseSign).noTinyCells := by
  intro p hp
  rcases List.mem_map.mp hp with ⟨q, hq, rfl⟩
  rw [abs_neg]
  exact h q hq

theorem merase_subset {α β : Type} (kf : α → Int) (k : Int) :
    ∀ {l : List (α × β)} {q : α × β} {l2 : List (α × β)},
      merase kf k l = some (q, l2) → ∀ x ∈ l2, x ∈ l := by
  intro l
  induction l with
  | nil => intro q l2 h; simp [merase] at h
  | cons p ps ih =>
    intro q l2 h x hx
    rw [merase] at h
    split at h
    · have h2 := Option.some.inj h
      rw [← ((Prod.mk.injEq _ _ _ _).mp h2).2] at hx
      exact List.mem_cons_of_mem p (mem_of_swapTail hx)
    · split at h
      · exact absurd h (by simp)
      · rename_i q2ps2 heq
        have h2 := Option.some.inj h
        rw [← ((Prod.mk.injEq _ _ _ _).mp h2).2] at hx
        rcases List.mem_cons.mp hx with h1 | h3
        · rw [h1]
          exact List.mem_cons_self p ps
        · exact List.mem_cons_of_mem p (ih heq x h3)

theorem Row.substitute_noTiny {r : Row} (s : KSymbol) (other : Row)
    (h : r.noTinyCells) : (r.substitute s other).noTinyCells := by
  unfold Row.substitute
  split
  · exact h
  · rename_i p cs heq
    exact Row.insertRow_noTiny other p.2
      (fun x hx => h x (merase_subset KSymbol.id s.id heq x hx))

/-
Definitions and lemmas for the subject-choice refinement (claim C5).
-/

/-- Subject choice following the wording of the claim: (a) the first External
symbol in the cell order of the row; else (b) the marker when it is Slack or
Error with a negative coefficient in the row; else (c) the other symbol
under the same condition; else (d) the Invalid symbol. -/
def chooseSubjectSpec (row : Row) (tag : Tag) : KSymbol :=
  match row.cells.find? (fun p => p.1.stype == SymbolType.External) with
  | some p => p.1
  | none =>
    if (tag.marker.stype = SymbolType.Slack ∨ tag.marker.stype = SymbolType.Error)
        ∧ row.coefficientFor tag.marker < 0 then tag.marker
    else if (tag.other.stype = SymbolType.Slack ∨ tag.other.stype = SymbolType.Error)
        ∧ row.coefficientFor tag.other < 0 then tag.other
    else INVALID_SYMBOL

theorem firstExternalCell_eq_find (cs : Cells) :
    firstExternalCell cs
      = (cs.find? (fun p => p.1.stype == SymbolType.External)).map Prod.fst := by
  induction cs with
  | nil => rfl
  | cons p ps ih =>
    rw [firstExternalCell]
    by_cases h : p.1.stype = SymbolType.External
    · rw [if_pos h, List.find?_cons_of_pos ps (by simp [h])]
      rfl
    · rw [if_neg h, List.find?_cons_of_neg ps (by simp [h]), ih]

theorem allDummiesGo_iff (cs : Cells) :
    allDummiesGo cs = true ↔ ∀ p ∈ cs, p.1.stype = SymbolType.Dummy := by
  induction cs with
  | nil => simp [allDummiesGo]
  | cons p ps ih =>
    rw [allDummiesGo]
    by_cases h : p.1.stype = SymbolType.Dummy
    · rw [if_pos h, ih]
      simp [h]
    · rw [if_neg h]
      simp [h]

/-
Lemmas for the updateVariables value formula (claim C6).
-/

theorem updateVarsGo_notin (rm : List (KSymbol × Row)) :
    ∀ (l : List (KVar × KSymbol)) (vals : Int → ℚ) (n : Int),
      (∀ q ∈ l, q.1.id ≠ n) → updateVarsGo rm vals l n = vals n := by
  intro l
  induction l with
  | nil => intro vals n _; rfl
  | cons p ps ih =>
    intro vals n h
    rw [updateVarsGo]
    rw [ih _ n (fun q hq => h q (List.mem_cons_of_mem p hq))]
    rw [if_neg (Ne.symm (h p (List.mem_cons_self p ps)))]

theorem updateVarsGo_mem (rm : List (KSymbol × Row)) :
    ∀ (l : List (KVar × KSymbol)) (vals : Int → ℚ) (v : KVar) (sym : KSymbol),
      List.Pairwise (fun p q => p.1.id ≠ q.1.id) l → (v, sym) ∈ l →
      updateVarsGo rm vals l v.id =
        (match mfind KSymbol.id sym.id rm with
          | some rp => rp.2.constant
          | none => 0) := by
  intro l
  induction l with
  | nil => intro _ _ _ _ h; simp at h
  | cons p ps ih =>
    intro vals v sym hpw hmem
    rcases List.mem_cons.mp hmem with h1 | h2
    · have hhead := (List.pairwise_cons.mp hpw).1
      have hv : p.1.id = v.id := by rw [← h1]
      rw [updateVarsGo]
      rw [updateVarsGo_notin rm ps _ v.id
        (fun q hq heq => hhead q hq (hv.trans heq.symm))]
      rw [← h1]
      simp
    · rw [updateVarsGo]
      exact ih _ v sym (List.pairwise_cons.mp hpw).2 h2

/-- Clamp as worded in the strength claim. -/
def clampQ (x lo hi : ℚ) : ℚ := max lo (min hi x)

/-
Evaluation simp set: the equations of every executable definition, plus the
two loop-exit lemmas, so that concrete solver runs reduce inside norm_num.
The Strength definitions are unfolded per proof instead, because several
theorems reason about `Strength.clip` symbolically.
-/

attribute [simp] eps nearZero swapTail mfind merase minsert insertSymbolGo
  Row.insertSymbol insertRowGo Row.insertRow Row.removeSymbol Row.reverseSign
  Row.solveFor Row.solveForEx Row.substitute Row.add Row.isConstant allDummiesGo
  Row.allDummies Row.coefficientFor Expression.ofVar Expression.scaledVar
  Expression.minusNum Constraint.make Solver.empty Solver.makeSymbol
  Solver.getVarSymbol Solver.createRowTerms Solver.createRow firstExternalCell
  Solver.chooseSubject Solver.resolveSubject substRows Solver.substituteAll
  getEnteringCell Solver.getEnteringSymbol MAXVALUE getLeavingGo
  Solver.getLeavingSymbol anyPivotableCell Solver.getObj
  Solver.addWithArtificialVariable dualEnteringGo Solver.getDualEnteringSymbol
  markerLeavingGo Solver.getMarkerLeavingSymbol Solver.removeMarkerEffects
  Solver.removeConstraintEffects World.fresh World.addConstraint
  World.removeConstraint World.hasConstraint World.addEditVariable
  World.removeEditVariable suggestRowsGo World.suggestValue updateVarsGo
  World.updateVariables Solver.optimize_noop Solver.dualOptimize_noop

/-
Concrete scenario used by several claims: one external variable x.
-/

/-- The user variable x (first Variable created, id 0). -/
def varX : KVar := ⟨0⟩

/-- The External symbol backing x in a fresh solver. -/
def symX : KSymbol := ⟨SymbolType.External, 0⟩

/-- The slack symbol of the first added inequality. -/
def slack1 : KSymbol := ⟨SymbolType.Slack, 1⟩

/-- The slack symbol of the second added inequality. -/
def slack2 : KSymbol := ⟨SymbolType.Slack, 2⟩

/-- The constraint `x >= 10` at required strength:
`new Constraint(x, Operator.Ge, 10)`. -/
def cnGe10 : Constraint :=
  Constraint.make 0 ((Expression.ofVar varX).minusNum 10) Operator.Ge Strength.required

/-- The constraint `x <= 5` at required strength. -/
def cnLe5 : Constraint :=
  Constraint.make 1 ((Expression.ofVar varX).minusNum 5) Operator.Le Strength.required

/-- The constraint `0.125 x <= 1.25 - 2^-27` at required strength, built from
`new Expression([0.125, x])`.  Together with `x >= 10` it is infeasible by
`2^-24`, but the artificial phase sees only the scaled residual `2^-27`,
which passes the near-zero acceptance test. -/
def cnTiny : Constraint :=
  Constraint.make 1 ((Expression.scaledVar varX (1/8)).minusNum (5/4 - 1/134217728))
    Operator.Le Strength.required

/-- The constraint `x = 5` at required strength. -/
def cnEq5 : Constraint :=
  Constraint.make 0 ((Expression.ofVar varX).minusNum 5) Operator.Eq Strength.required

/-- The world after adding `x >= 10` to a fresh solver: x is basic with
`x = 10 + s1`. -/
def wGe10 : World :=
  ⟨⟨[(cnGe10, ⟨slack1, INVALID_SYMBOL⟩)],
    [(symX, ⟨10, [(slack1, 1)]⟩)],
    [(varX, symX)], [], [], ⟨0, []⟩, none, 2, 1000⟩,
   fun _ => 0, 0⟩

theorem wGe10_eval : World.fresh.addConstraint cnGe10 = (wGe10, none) := by
  norm_num [cnGe10, varX, wGe10, symX, slack1, INVALID_SYMBOL,
    Strength.clip, Strength.required, Strength.create]

/-- The world left behind after `addConstraint (x <= 5)` throws on top of
`wGe10`: the failed artificial phase has pivoted the tableau, leaving
`x = 5 - s2` and the infeasible `s1 = -5 - s2`. -/
def wLe5 : World :=
  ⟨⟨[(cnGe10, ⟨slack1, INVALID_SYMBOL⟩)],
    [(symX, ⟨5, [(slack2, -1)]⟩), (slack1, ⟨-5, [(slack2, -1)]⟩)],
    [(varX, symX)], [], [], ⟨0, []⟩, none, 4, 1000⟩,
   fun _ => 0, 0⟩

theorem wLe5_eval : wGe10.addConstraint cnLe5 = (wLe5, some "unsatisfiable constraint") := by
  norm_num [cnLe5, cnGe10, varX, wGe10, wLe5, symX, slack1, slack2, INVALID_SYMBOL,
    Strength.clip, Strength.required, Strength.create]

/-- The world after the second, successful add of `cnTiny` on top of `wGe10`:
the slack row `s1 = -2^-24 - 8 s2` has a constant below `-eps`. -/
def wTiny : World :=
  ⟨⟨[(cnGe10, ⟨slack1, INVALID_SYMBOL⟩), (cnTiny, ⟨slack2, INVALID_SYMBOL⟩)],
    [(symX, ⟨167772159/16777216, [(slack2, -8)]⟩),
     (slack1, ⟨-1/16777216, [(slack2, -8)]⟩)],
    [(varX, symX)], [], [], ⟨0, []⟩, none, 4, 1000⟩,
   fun _ => 0, 0⟩

theorem wTiny_eval : wGe10.addConstraint cnTiny = (wTiny, none) := by
  norm_num [cnTiny, cnGe10, varX, wGe10, wTiny, symX, slack1, slack2, INVALID_SYMBOL,
    Strength.clip, Strength.required, Strength.create]

/-- The dummy marker of `cnEq5`. -/
def dummy1 : KSymbol := ⟨SymbolType.Dummy, 1⟩

/-- The world after adding `x = 5` to a fresh solver. -/
def wEq5 : World :=
  ⟨⟨[(cnEq5, ⟨dummy1, INVALID_SYMBOL⟩)],
    [(symX, ⟨5, [(dummy1, -1)]⟩)],
    [(varX, symX)], [], [], ⟨0, []⟩, none, 2, 1000⟩,
   fun _ => 0, 0⟩

theorem wEq5_eval : World.fresh.addConstraint cnEq5 = (wEq5, none) := by
  norm_num [cnEq5, varX, wEq5, symX, dummy1, INVALID_SYMBOL,
    Strength.clip, Strength.required, Strength.create]

/-- The positive error symbol of the edit constraint on x. -/
def err1 : KSymbol := ⟨SymbolType.Error, 1⟩

/-- The negative error symbol of the edit constraint on x. -/
def err2 : KSymbol := ⟨SymbolType.Error, 2⟩

/-- The synthetic constraint `x = 0` at strength strong built by
addEditVariable. -/
def cnEdit : Constraint := ⟨0, ⟨[(varX, 1)], 0⟩, Operator.Eq, 1000000⟩

/-- The world after `addEditVariable(x, Strength.strong)` on a fresh solver:
x is basic with `x = e1 - e2` and the objective carries both error symbols at
strength strong. -/
def wEdit : World :=
  ⟨⟨[(cnEdit, ⟨err1, err2⟩)],
    [(symX, ⟨0, [(err2, -1), (err1, 1)]⟩)],
    [(varX, symX)],
    [(varX, ⟨⟨err1, err2⟩, cnEdit, 0⟩)],
    [], ⟨0, [(err1, 1000000), (err2, 1000000)]⟩, none, 3, 1000⟩,
   fun _ => 0, 1⟩

theorem wEdit_eval : World.fresh.addEditVariable varX Strength.strong = (wEdit, none) := by
  norm_num [cnEdit, varX, wEdit, symX, err1, err2, INVALID_SYMBOL,
    Strength.clip, Strength.required, Strength.create, Strength.strong]

/-
The claim theorems.
-/

/-- C1: the claim says that after every successful public call every row in
the tableau has constant >= -1.0e-8.  The code violates this: adding the
required constraints `x >= 10` and then `0.125 x <= 1.25 - 2^-27` both
succeeds (the artificial phase accepts the scaled residual `2^-27` as near
zero), yet afterwards the slack-basic row `s1` has constant `-2^-24`, which is
below `-1.0e-8`.  This contradicts the stated spec invariant I1/P1, so the
code, not the claim, is at fault. -/
theorem C1_feasibility_violated :
    (World.fresh.addConstraint cnGe10).2 = none ∧
    ((World.fresh.addConstraint cnGe10).1.addConstraint cnTiny).2 = none ∧
    ∃ p ∈ ((World.fresh.addConstraint cnGe10).1.addConstraint cnTiny).1.solver.rowMap,
      p.1.stype ≠ SymbolType.External ∧ p.2.constant < -(1/100000000) := by
  have h1 : (World.fresh.addConstraint cnGe10).1 = wGe10 := by rw [wGe10_eval]
  refine ⟨by rw [wGe10_eval], by rw [h1, wTiny_eval], ?_⟩
  rw [h1, wTiny_eval]
  refine ⟨(slack1, ⟨-1/16777216, [(slack2, -8)]⟩), ?_, ?_, ?_⟩
  · simp [wTiny]
  · norm_num [slack1]
  · norm_num

/-- C2: with a single edit variable at strength strong and no other
constraints, suggestValue followed by updateVariables reports exactly the
suggested value, for every rational x. -/
theorem C2_edit_roundtrip (x : ℚ) :
    (World.fresh.addEditVariable varX Strength.strong).2 = none ∧
    ((World.fresh.addEditVariable varX Strength.strong).1.suggestValue varX x).2 = none ∧
    ((((World.fresh.addEditVariable varX Strength.strong).1.suggestValue varX x).1).updateVariables).vals
      varX.id = x := by
  have h1 : (World.fresh.addEditVariable varX Strength.strong).1 = wEdit := by
    rw [wEdit_eval]
  refine ⟨by rw [wEdit_eval], ?_, ?_⟩ <;>
    rw [h1] <;>
    norm_num [wEdit, cnEdit, varX, symX, err1, err2, INVALID_SYMBOL]

/-- General form of the cnMap shape after removeConstraint, used for C3: the
only change to cnMap is the initial erase. -/
theorem World.removeConstraint_cnMap (w : World) (cn : Constraint) :
    ((w.removeConstraint cn).1).solver.cnMap =
      match merase Constraint.id cn.id w.solver.cnMap with
      | none => w.solver.cnMap
      | some (_, m2) => m2 := by
  cases hm : merase Constraint.id cn.id w.solver.cnMap with
  | none => simp only [World.removeConstraint, hm]
  | some pr2 =>
    obtain ⟨cnPair, cnMap2⟩ := pr2
    simp only [World.removeConstraint, hm]
    split
    · simp only [Solver.optimize_cnMap, Solver.removeConstraintEffects_cnMap]
    · split
      · simp only [Solver.removeConstraintEffects_cnMap]
      · split
        · simp only [Solver.removeConstraintEffects_cnMap]
        · simp only [Solver.optimize_cnMap, Solver.substituteAll_cnMap,
            Solver.removeConstraintEffects_cnMap]

/-- C3: adding an already-present constraint instance throws
"duplicate constraint" and leaves the world (all maps, objective, values)
exactly unchanged; and when that constraint was the only one, a subsequent
removeConstraint leaves the solver with no constraints. -/
theorem C3_duplicate_add (w : World) (cn : Constraint) (pr : Constraint × Tag)
    (hfind : mfind Constraint.id cn.id w.solver.cnMap = some pr) :
    w.addConstraint cn = (w, some "duplicate constraint") ∧
    (∀ tg : Tag, w.solver.cnMap = [(cn, tg)] →
      ((w.removeConstraint cn).1).solver.cnMap = []) := by
  constructor
  · simp only [World.addConstraint, hfind]
  · intro tg honly
    rw [World.removeConstraint_cnMap, honly]
    simp

/-- Witness for C3 at the reachable one-constraint world wEq5. -/
theorem C3_duplicate_add_witness :
    wEq5.addConstraint cnEq5 = (wEq5, some "duplicate constraint") ∧
    ((wEq5.removeConstraint cnEq5).1).solver.cnMap = [] := by
  have hfind : mfind Constraint.id cnEq5.id wEq5.solver.cnMap
      = some (cnEq5, ⟨dummy1, INVALID_SYMBOL⟩) := by
    simp [wEq5]
  have h := C3_duplicate_add wEq5 cnEq5 _ hfind
  exact ⟨h.1, h.2 ⟨dummy1, INVALID_SYMBOL⟩ (by simp [wEq5])⟩

/-- C4: the claim expects that after `x >= 10` is installed, a failed add of
`x <= 5` keeps `x.value() >= 10 - eps`.  The code does raise
"unsatisfiable constraint" and keeps the first constraint installed, but the
failed artificial phase leaves the tableau pivoted so that updateVariables
reports x = 5, contradicting the claimed bound (and the spec promise that a
throwing call has no visible effect on the tableau). -/
theorem C4_failed_add_mutates_tableau :
    (World.fresh.addConstraint cnGe10).2 = none ∧
    ((World.fresh.addConstraint cnGe10).1.addConstraint cnLe5).2
      = some "unsatisfiable constraint" ∧
    ((World.fresh.addConstraint cnGe10).1.addConstraint cnLe5).1.hasConstraint cnGe10
      = true ∧
    ((((World.fresh.addConstraint cnGe10).1.addConstraint cnLe5).1).updateVariables).vals
      varX.id = 5 ∧
    ¬ ((10 : ℚ) - 1/100000000 ≤ 5) := by
  have h1 : (World.fresh.addConstraint cnGe10).1 = wGe10 := by rw [wGe10_eval]
  have h2 : (wGe10.addConstraint cnLe5).1 = wLe5 := by rw [wLe5_eval]
  refine ⟨by rw [wGe10_eval], by rw [h1, wLe5_eval], ?_, ?_, by norm_num⟩
  · rw [h1, h2]
    simp [wLe5, cnGe10]
  · rw [h1, h2]
    norm_num [wLe5, varX, symX, slack1, slack2]

/-- C5: the subject chosen for a new row follows exactly the claimed
precedence (first External cell, else marker, else other, else Invalid), and
when the subject is Invalid on an all-Dummy row the add uses the marker as
subject for a near-zero constant and is otherwise unsatisfiable. -/
theorem C5_subject_choice (row : Row) (tag : Tag) :
    Solver.chooseSubject row tag = chooseSubjectSpec row tag ∧
    ((Solver.chooseSubject row tag).stype = SymbolType.Invalid →
      (∀ p ∈ row.cells, p.1.stype = SymbolType.Dummy) →
      ((|row.constant| < eps →
          Solver.resolveSubject row tag = Except.ok tag.marker) ∧
       (eps ≤ |row.constant| →
          Solver.resolveSubject row tag = Except.error "unsatisfiable constraint"))) := by
  constructor
  · unfold Solver.chooseSubject chooseSubjectSpec
    rw [firstExternalCell_eq_find]
    cases row.cells.find? (fun p => p.1.stype == SymbolType.External) <;> rfl
  · intro hinv hdum
    have hall : row.allDummies = true := (allDummiesGo_iff row.cells).mpr hdum
    constructor
    · intro habs
      unfold Solver.resolveSubject
      rw [if_pos ⟨hinv, hall⟩,
        if_neg (by rw [nearZero_iff_abs.mpr habs]; simp)]
    · intro habs
      unfold Solver.resolveSubject
      rw [if_pos ⟨hinv, hall⟩, if_pos (nearZero_false_iff_abs.mpr habs)]

/-- Witness for C5 on a concrete all-dummy row with near-zero constant. -/
theorem C5_subject_choice_witness :
    Solver.chooseSubject ⟨0, [(⟨SymbolType.Dummy, 5⟩, 1)]⟩
        ⟨⟨SymbolType.Dummy, 5⟩, INVALID_SYMBOL⟩
      = chooseSubjectSpec ⟨0, [(⟨SymbolType.Dummy, 5⟩, 1)]⟩
        ⟨⟨SymbolType.Dummy, 5⟩, INVALID_SYMBOL⟩ ∧
    Solver.resolveSubject ⟨0, [(⟨SymbolType.Dummy, 5⟩, 1)]⟩
        ⟨⟨SymbolType.Dummy, 5⟩, INVALID_SYMBOL⟩
      = Except.ok ⟨SymbolType.Dummy, 5⟩ := by
  refine ⟨(C5_subject_choice _ _).1, ?_⟩
  exact ((C5_subject_choice ⟨0, [(⟨SymbolType.Dummy, 5⟩, 1)]⟩
      ⟨⟨SymbolType.Dummy, 5⟩, INVALID_SYMBOL⟩).2
    (by norm_num [INVALID_SYMBOL]) (by norm_num)).1 (by norm_num [eps])

/-- C6: updateVariables writes, for each variable in varMap, the constant of
the row keyed by its External symbol, and 0 when that symbol is not a key of
rowMap. -/
theorem C6_updateVariables_values (w : World) (v : KVar) (sym : KSymbol)
    (hnodup : List.Pairwise (fun p q => p.1.id ≠ q.1.id) w.solver.varMap)
    (hmem : (v, sym) ∈ w.solver.varMap) :
    ((w.updateVariables).vals) v.id =
      match mfind KSymbol.id sym.id w.solver.rowMap with
      | some rp => rp.2.constant
      | none => 0 :=
  updateVarsGo_mem w.solver.rowMap w.solver.varMap w.vals v sym hnodup hmem

/-- Witness for C6 at the reachable world wEq5 (basic symbol case). -/
theorem C6_updateVariables_values_witness :
    ((wEq5.updateVariables).vals) varX.id = 5 := by
  have h := C6_updateVariables_values wEq5 varX symX
    (by simp [wEq5]) (by simp [wEq5])
  rw [h]
  norm_num [wEq5, symX]

/-- C7 counterexample: required is 1.001001e9, not the claimed 1.001e9. -/
theorem C7_counterexample : Strength.required ≠ 1001000000 := by
  norm_num [Strength.required, Strength.create]

/-- C7 (amended): the packing formula is as claimed, and
required = create(1000,1000,1000) = 1.001001e9 (not 1.001e9);
strong, medium, weak are create(1,0,0), create(0,1,0), create(0,0,1). -/
theorem C7_strength_packing :
    (∀ a b c w : ℚ, Strength.create a b c w =
      clampQ (a*w) 0 1000 * 1000000 + clampQ (b*w) 0 1000 * 1000 + clampQ (c*w) 0 1000) ∧
    Strength.required = Strength.create 1000 1000 1000 1 ∧
    Strength.required = 1001001000 ∧
    Strength.strong = Strength.create 1 0 0 1 ∧
    Strength.medium = Strength.create 0 1 0 1 ∧
    Strength.weak = Strength.create 0 0 1 1 := by
  refine ⟨fun a b c w => ?_, rfl, Strength.required_val, rfl, rfl, rfl⟩
  simp [Strength.create, clampQ, zero_add]

/-- C8 counterexample: solveFor (and hence solveForEx) does not erase cells
whose coefficient falls within eps of zero: solving a row with coefficients
2^30 and 1 for the large symbol stores a cell of magnitude 2^-30 < eps. -/
theorem C8_counterexample :
    Row.noTinyCells ⟨0, [(⟨SymbolType.Slack, 0⟩, 1073741824), (⟨SymbolType.Slack, 1⟩, 1)]⟩ ∧
    ¬ (Row.solveFor ⟨0, [(⟨SymbolType.Slack, 0⟩, 1073741824), (⟨SymbolType.Slack, 1⟩, 1)]⟩
        ⟨SymbolType.Slack, 0⟩).noTinyCells ∧
    ¬ (Row.solveForEx ⟨0, [(⟨SymbolType.Slack, 0⟩, 1073741824), (⟨SymbolType.Slack, 1⟩, 1)]⟩
        ⟨SymbolType.Slack, 2⟩ ⟨SymbolType.Slack, 0⟩).noTinyCells := by
  refine ⟨?_, ?_, ?_⟩
  · intro p hp
    rcases List.mem_cons.mp hp with h1 | h2
    · rw [h1]; norm_num [eps]
    · rw [List.mem_singleton.mp h2]; norm_num [eps]
  · intro h
    have := h (⟨SymbolType.Slack, 1⟩, -(1/1073741824)) (by norm_num)
    rw [abs_neg, abs_of_pos (by norm_num : (0:ℚ) < 1/1073741824)] at this
    norm_num [eps] at this
  · intro h
    have := h (⟨SymbolType.Slack, 2⟩, 1/1073741824) (by norm_num)
    rw [abs_of_pos (by norm_num : (0:ℚ) < 1/1073741824)] at this
    norm_num [eps] at this

/-- C8 (amended): insertSymbol, insertRow, reverseSign and substitute preserve
the no-near-zero-cell invariant (near-zero results are erased on insert);
solveFor and solveForEx are excluded, as the counterexample shows they can
store near-zero cells. -/
theorem C8_row_invariant (r other : Row) (s : KSymbol) (c : ℚ)
    (h : r.noTinyCells) :
    (r.insertSymbol s c).noTinyCells ∧
    (r.insertRow other c).noTinyCells ∧
    (r.reverseSign).noTinyCells ∧
    (r.substitute s other).noTinyCells :=
  ⟨r.insertSymbol_noTiny s c h, Row.insertRow_noTiny other c h,
    Row.reverseSign_noTiny h, Row.substitute_noTiny s other h⟩

/-- Witness for C8 on a concrete row. -/
theorem C8_row_invariant_witness :
    (Row.insertSymbol ⟨0, [(⟨SymbolType.Slack, 0⟩, 1)]⟩ ⟨SymbolType.Slack, 1⟩ 3).noTinyCells ∧
    (Row.insertRow ⟨0, [(⟨SymbolType.Slack, 0⟩, 1)]⟩ ⟨2, [(⟨SymbolType.Slack, 1⟩, 5)]⟩ 4).noTinyCells ∧
    (Row.reverseSign ⟨0, [(⟨SymbolType.Slack, 0⟩, 1)]⟩).noTinyCells ∧
    (Row.substitute ⟨0, [(⟨SymbolType.Slack, 0⟩, 1)]⟩ ⟨SymbolType.Slack, 0⟩
      ⟨2, [(⟨SymbolType.Slack, 1⟩, 5)]⟩).noTinyCells := by
  have hinv : Row.noTinyCells ⟨0, [(⟨SymbolType.Slack, 0⟩, 1)]⟩ := by
    intro p hp
    rw [List.mem_singleton.mp hp]
    norm_num [eps]
  have hA := C8_row_invariant ⟨0, [(⟨SymbolType.Slack, 0⟩, 1)]⟩
    ⟨2, [(⟨SymbolType.Slack, 1⟩, 5)]⟩ ⟨SymbolType.Slack, 1⟩ 3 hinv
  have hB := C8_row_invariant ⟨0, [(⟨SymbolType.Slack, 0⟩, 1)]⟩
    ⟨2, [(⟨SymbolType.Slack, 1⟩, 5)]⟩ ⟨SymbolType.Slack, 0⟩ 4 hinv
  exact ⟨hA.1, hB.2.1, hA.2.2.1, hB.2.2.2⟩

/-- C9: addEditVariable clips the strength before validating, so every
strength at or above required (clipping to required) throws
"bad required strength" without touching any state, while every strength
strictly below required is accepted and records an edit entry. -/
theorem C9_addEditVariable_strength (w : World) (v : KVar) (σ τ : ℚ)
    (hfree : mfind KVar.id v.id w.solver.editMap = none)
    (hσ : Strength.required ≤ σ) (hτ : τ < Strength.required) :
    w.addEditVariable v σ = (w, some "bad required strength") ∧
    ((World.fresh.addEditVariable varX τ).2 = none ∧
     (mfind KVar.id varX.id (World.fresh.addEditVariable varX τ).1.solver.editMap).isSome
        = true) := by
  have hclip := Strength.clip_of_ge hσ
  have h3 := Strength.clip_lt_required hτ
  have h1 : ¬ (Strength.clip τ = Strength.required) := ne_of_lt h3
  have h2 : ¬ (Strength.clip τ < 0) := not_lt.mpr (Strength.clip_nonneg τ)
  refine ⟨by simp [hfree, hclip], ?_⟩
  by_cases hz : Strength.clip τ < (1/100000000 : ℚ)
  · norm_num [varX, Strength.clip_idem, h1, h2, h3, hz, INVALID_SYMBOL]
  · norm_num [varX, Strength.clip_idem, h1, h2, h3, hz, INVALID_SYMBOL]

/-- Witness for C9 at strength 2e9 (above required) and strong (below). -/
theorem C9_addEditVariable_strength_witness :
    World.fresh.addEditVariable varX 2000000000 = (World.fresh, some "bad required strength") ∧
    (World.fresh.addEditVariable varX Strength.strong).2 = none := by
  have h := C9_addEditVariable_strength World.fresh varX 2000000000 Strength.strong
    (by simp [World.fresh, Solver.empty, mfind])
    (by norm_num [Strength.required_val])
    (by norm_num [Strength.required_val, Strength.strong, Strength.create])
  exact ⟨h.1, h.2.1⟩

/-- C10: updateVariables writes only Variable values; the tableau, objective,
constraint map, variable map, edit map and the infeasible-row list are all
exactly unchanged. -/
theorem C10_updateVariables_frame (w : World) :
    ((w.updateVariables).solver.rowMap = w.solver.rowMap) ∧
    ((w.updateVariables).solver.objective = w.solver.objective) ∧
    ((w.updateVariables).solver.cnMap = w.solver.cnMap) ∧
    ((w.updateVariables).solver.varMap = w.solver.varMap) ∧
    ((w.updateVariables).solver.editMap = w.solver.editMap) ∧
    ((w.updateVariables).solver.infeasibleRows = w.solver.infeasibleRows) :=
  ⟨rfl, rfl, rfl, rfl, rfl, rfl⟩

end Kiwi
